import Mathlib

/-!
# testutil: assertion helpers with a call-site trail

A shallow embedding of `testutil.go` (package `testutil`).

* The assertion context `I` is a record; an `Option` (`func(*I)`) is the
  mutation it performs on the record it points to.
* Calls into the host test framework and into the output sink are recorded, in
  program order, as a list of `Event`s.
* A Go panic is the `Except.error` result: a write to the nil sink, a panic of
  the diff capability, an index out of range, the walker's own `panic`.
* The goroutine call stack that `runtime.Callers` inspects is an explicit
  argument (innermost frame first).
* The packages `runtime`, `path/filepath`, `strconv` and `cmp` are outside the
  repository: `runtime.Callers`, `Frames.Next`, `filepath.Base` and
  `strconv.Itoa` follow their documentation, `cmp.Diff` is a parameter that
  may return a text or panic.
-/

namespace testutil

/-! ## Data model -/

/-- Handle of a running test (`*testing.T`), identified by a number. -/
structure T where
  id : Nat
deriving DecidableEq, Repr

/-- Values of the interface type `io.Writer`: the nil interface value, the
process's standard output (`os.Stdout`), or some other writer. -/
inductive Writer where
  | nil
  | stdout
  | custom (id : Nat)
deriving DecidableEq, Repr

/-- The assertion context, `type I struct` (lines 17-24). -/
structure I where
  t : T
  out : Writer
  failFast : Bool
  noDefaults : Bool
  showFunction : Bool
  parallel : Bool
deriving DecidableEq, Repr

/-- The type `Option func(*I)` (line 48): the effect of the function on the
context its argument points to. -/
abbrev Option : Type := I → I

/-- Calls that leave the package, in the order they are made. `WriteString w s`
is the text `s` handed to the non-nil writer `w` by `io.WriteString(w, s)`;
`Fail`, `FailNow` and `Parallel` are the methods of `*testing.T`. -/
inductive Event where
  | WriteString (w : Writer) (s : String)
  | Fail (t : T)
  | FailNow (t : T)
  | Parallel (t : T)
deriving DecidableEq, Repr

/-- Go's `io.WriteString(w, s)`. The nil writer has no `Write` method to call:
the call panics with a nil dereference and nothing after it runs. Any other
writer receives the text; the results of the call are discarded by every
caller in the package. -/
def io.WriteString (w : Writer) (s : String) : Except String (List Event) :=
  match w with
  | Writer.nil => Except.error "invalid memory address or nil pointer dereference"
  | Writer.stdout => Except.ok [Event.WriteString Writer.stdout s]
  | Writer.custom id => Except.ok [Event.WriteString (Writer.custom id) s]

/-! ## Options (lines 50-55) -/

/-- Line 50: `func FailFast(is *I) { is.failFast = true }`. -/
def FailFast : Option := fun is => { is with failFast := true }

/-- Line 51: `func NoDefaults(is *I) { is.noDefaults = true }`. -/
def NoDefaults : Option := fun is => { is with noDefaults := true }

/-- Line 52: `func Parallel(is *I) { is.parallel = true }`. -/
def Parallel : Option := fun is => { is with parallel := true }

/-- Lines 53-55: `SetOutput(w)` returns `func(is *I) { is.out = w }`. -/
def SetOutput (w : Writer) : Option := fun is => { is with out := w }

/-- The loop `for _, opt := range opts { opt(&is) }` of both constructors. -/
def applyOpts (opts : List Option) (is : I) : I :=
  opts.foldl (fun acc opt => opt acc) is

/-! ## Construction (lines 26-46) -/

/-- Lines 26-35, `func New(t *testing.T, opts ...Option) I`: the returned
context and the calls made on the test handle. -/
def New (t : T) (opts : List Option) : I × List Event :=
  let is : I := { t := t, out := Writer.stdout, failFast := false,
                  noDefaults := false, showFunction := false, parallel := false }
  let is := applyOpts opts is
  if is.parallel then (is, [Event.Parallel t]) else (is, [])

/-- The variables live during a call `p.New(t, opts...)`: the value the method
was called on, which stays with the caller, and the method's receiver `is`,
which Go initialises with a copy of it. -/
structure NewCall where
  caller : I
  is : I
  events : List Event
deriving DecidableEq, Repr

/-- Lines 37-46, `func (is I) New(t *testing.T, opts ...Option) I`. Every
assignment and every `opt(&is)` acts on the receiver copy. -/
def I.New (p : I) (t : T) (opts : List Option) : NewCall :=
  let s : NewCall := { caller := p, is := p, events := [] }
  let s := { s with is := { s.is with t := t } }
  let s := opts.foldl (fun acc opt => { acc with is := opt acc.is }) s
  if s.is.parallel then { s with events := s.events ++ [Event.Parallel t] } else s

/-! ## The failure escalator (lines 57-63) -/

/-- Lines 57-63, `func (is I) fail()`. -/
def I.fail (is : I) : List Event :=
  if is.failFast then [Event.FailNow is.t] else [Event.Fail is.t]

/-! ## Call sites (lines 100-143) -/

/-- The fields of `runtime.Frame` the package reads. -/
structure Frame where
  Function : String
  File : String
  Line : Int
deriving DecidableEq, Repr

/-- Lines 120-124, `type callsite struct`. -/
structure callsite where
  function : String
  file : String
  line : Int
deriving DecidableEq, Repr

/-- Line 126, `type callsites []callsite`. -/
abbrev callsites : Type := List callsite

/-- The frame a function of this package contributes to the call stack while
it is calling out from source line `line`. -/
def pkgFrame (fn : String) (line : Int) : Frame :=
  { Function := "github.com/bokwoon95/testutil." ++ fn, File := "testutil.go", Line := line }

/-- The frame of `runtime.Callers` itself. -/
def runtimeCallersFrame : Frame :=
  { Function := "runtime.Callers", File := "extern.go", Line := 0 }

/-- Go's `runtime.Callers(skip, pc)`, with program counters already resolved
to frames. `stack` is the stack of the function calling `runtime.Callers`,
innermost frame first. Skip value 0 identifies the frame of `Callers` itself
and 1 its caller; at most `cap` (the length of `pc`) entries are recorded. -/
def runtime.Callers (stack : List Frame) (skip cap : Nat) : List Frame :=
  ((runtimeCallersFrame :: stack).drop skip).take cap

/-- Go's `(*runtime.Frames).Next`: the next frame, the `more` result, and the
iterator's remaining frames. `more` reports whether a later call to `Next`
will return a valid frame, so it is false together with the last frame; an
exhausted iterator returns the zero frame. -/
def Frames.Next (frames : List Frame) : Frame × Bool × List Frame :=
  match frames with
  | [] => ({ Function := "", File := "", Line := 0 }, false, [])
  | f :: rest => (f, !rest.isEmpty, rest)

/-- Line 111, the composite literal
`callsite{function: frame.Function, file: frame.File, line: frame.Line}`. -/
def siteOf (frame : Frame) : callsite :=
  { function := frame.Function, file := frame.File, line := frame.Line }

/-- Lines 110-112:
`for frame, more := frames.Next(); more; frame, more = frames.Next()`
with body `sites = append(sites, callsite{...})`. The argument pair
`(frame, more)` is the result of the latest `Next`, `frames` what the iterator
still holds. -/
def framesLoop : List Frame → Frame × Bool → callsites → callsites
  | frames, (frame, more), sites =>
    if more then
      let sites := sites ++ [siteOf frame]
      match frames with
      | [] => sites
      | f :: rest => framesLoop rest (f, !rest.isEmpty) sites
    else sites

/-- Lines 108-112: `sites` starts nil, `frames.Next()` is called once to
initialise the loop. -/
def collectSites (pcs : List Frame) : callsites :=
  let r := Frames.Next pcs
  framesLoop r.2.2 (r.1, r.2.1) []

/-- Reading `sites[j]` for a Go `int` index; out of range is a panic. -/
def index (sites : callsites) (j : Int) : Except String callsite :=
  if 0 ≤ j ∧ j < sites.length then
    match sites[j.toNat]? with
    | some c => Except.ok c
    | none => Except.error "index out of range"
  else Except.error "index out of range"

/-- Assigning `sites[j] = c` for a Go `int` index; out of range is a panic. -/
def assign (sites : callsites) (j : Int) (c : callsite) : Except String callsites :=
  if 0 ≤ j ∧ j < sites.length then Except.ok (sites.set j.toNat c)
  else Except.error "index out of range"

/-- Lines 113-116: `for i := len(sites)/2 - 1; i >= 0; i-- { ... }`. The first
argument is `i + 1`, so that `0` is the exit `i = -1` of the signed loop
variable. The body computes `opp := len(sites) - 1 - i` and performs the
tuple assignment `sites[i], sites[opp] = sites[opp], sites[i]`. -/
def swapLoop : Nat → callsites → Except String callsites
  | 0, sites => Except.ok sites
  | i + 1, sites => do
    let opp : Int := (sites.length : Int) - 1 - (i : Int)
    let a ← index sites opp
    let b ← index sites (i : Int)
    let sites ← assign sites (i : Int) a
    let sites ← assign sites opp b
    swapLoop i sites

/-- Lines 100-118, `func callers(skip int) callsites`. `stack` is the call
stack of the function calling `callers`, innermost frame first. -/
def callers (stack : List Frame) (skip : Nat) : Except String callsites :=
  let pc := runtime.Callers (pkgFrame "callers" 104 :: stack) (skip + 2) 50
  let n := pc.length
  if n = 0 then Except.error "is: zero callers found"
  else
    let sites := collectSites (pc.take n)
    swapLoop (sites.length / 2) sites

/-- Go's `filepath.Base` for slash-separated paths: the last element of the
path, after removing trailing slashes; `"."` for the empty path and `"/"` for
a path of slashes only. -/
def filepath.Base (path : String) : String :=
  if path = "" then "."
  else
    let stripped := (path.toList.reverse.dropWhile (fun c => c == '/')).reverse
    let last := (stripped.reverse.takeWhile (fun c => c != '/')).reverse
    if last = [] then "/" else String.mk last

/-- Go's `strconv.Itoa`: the decimal text of an integer. -/
def strconv.Itoa (n : Int) : String := toString n

/-- Lines 130-141, the body of `for i, site := range sites` with the builder's
contents `buf` passed along. -/
def stringifyLoop (showFunction : Bool) : Nat → callsites → String → String
  | _, [], buf => buf
  | i, site :: rest, buf =>
    if i = 0 then stringifyLoop showFunction (i + 1) rest buf
    else
      let buf := if i > 1 then buf ++ " -> " else buf
      let buf := buf ++ (filepath.Base site.file ++ ":" ++ strconv.Itoa site.line)
      let buf := if showFunction then buf ++ (":" ++ filepath.Base site.function) else buf
      stringifyLoop showFunction (i + 1) rest buf

/-- Lines 128-143, `func (sites callsites) stringify(showFunction bool) string`. -/
def callsites.stringify (sites : callsites) (showFunction : Bool) : String :=
  stringifyLoop showFunction 0 sites ""

/-! ## Assertion methods (lines 65-98) -/

/-- The call stack from which an assertion method is called, innermost frame
first: the frame of the calling function and everything above it. It is never
empty, since every Go function runs below at least the goroutine's entry
frame. -/
structure CallStack where
  caller : Frame
  outer : List Frame
deriving DecidableEq, Repr

/-- The frames of a call stack as a list, innermost first. -/
def CallStack.frames (stack : CallStack) : List Frame := stack.caller :: stack.outer

/-- Values of the interface type `error`: nil, or an error whose `Error()`
method returns `text`. -/
inductive error where
  | nil
  | value (text : String)
deriving DecidableEq, Repr

/-- The external structural-diff package `cmp`: `Diff` is `cmp.Diff`, which
returns the difference as text or panics (as it does on a struct with an
unexported field when no exporter option is given), and `exportAll` is the
option `cmp.Exporter(func(reflect.Type) bool { return true })` built at
lines 75-77. -/
structure Cmp (Value CmpOption : Type) where
  Diff : Value → Value → List CmpOption → Except String String
  exportAll : CmpOption

/-- Lines 65-71, `func (is I) True(expression bool)`. -/
def I.True (is : I) (stack : CallStack) (expression : Bool) : Except String (List Event) :=
  if expression then Except.ok []
  else do
    let sites ← callers (pkgFrame "I.True" 69 :: stack.frames) 1
    let written ← io.WriteString is.out
      ("[" ++ sites.stringify is.showFunction ++ "] not true\n")
    Except.ok (written ++ is.fail)

/-- Lines 73-85, `func (is I) Equal(x, y interface{}, opts ...cmp.Option)`. -/
def I.Equal {Value CmpOption : Type} (cmp : Cmp Value CmpOption) (is : I) (stack : CallStack)
    (x y : Value) (opts : List CmpOption) : Except String (List Event) :=
  let opts := if !is.noDefaults then [cmp.exportAll] ++ opts else opts
  do
    let diff ← cmp.Diff x y opts
    if diff = "" then Except.ok []
    else do
      let sites ← callers (pkgFrame "I.Equal" 83 :: stack.frames) 1
      let written ← io.WriteString is.out
        ("[" ++ sites.stringify is.showFunction ++ "] diff -x +y\n" ++ diff)
      Except.ok (written ++ is.fail)

/-- Lines 87-93, `func (is I) NoErr(err error)`. -/
def I.NoErr (is : I) (stack : CallStack) (err : error) : Except String (List Event) :=
  match err with
  | error.nil => Except.ok []
  | error.value text => do
    let sites ← callers (pkgFrame "I.NoErr" 91 :: stack.frames) 1
    let written ← io.WriteString is.out
      ("[" ++ sites.stringify is.showFunction ++ "] err: " ++ text ++ "\n")
    Except.ok (written ++ is.fail)

/-- Lines 95-98, `func (is I) Fail()`. -/
def I.Fail (is : I) (stack : CallStack) : Except String (List Event) := do
  let sites ← callers (pkgFrame "I.Fail" 96 :: stack.frames) 1
  let written ← io.WriteString is.out ("[" ++ sites.stringify is.showFunction ++ "] failed")
  Except.ok (written ++ is.fail)

/-! ## Notions used to state the properties -/

/-- How one call site is printed: `basename(file):line`, followed by
`:basename(function)` when `showFunction` is set. -/
def render (showFunction : Bool) (site : callsite) : String :=
  if showFunction then
    filepath.Base site.file ++ ":" ++ strconv.Itoa site.line ++ (":" ++ filepath.Base site.function)
  else filepath.Base site.file ++ ":" ++ strconv.Itoa site.line

/-- A trace marks test `t` failed when it contains `t.Fail()` or `t.FailNow()`. -/
def marksFailed (t : T) (events : List Event) : Prop :=
  Event.Fail t ∈ events ∨ Event.FailNow t ∈ events

instance (t : T) (events : List Event) : Decidable (marksFailed t events) :=
  inferInstanceAs (Decidable (Event.Fail t ∈ events ∨ Event.FailNow t ∈ events))

/-- The options the package exports, by name. -/
inductive Builtin where
  | failFast
  | noDefaults
  | parallel
  | setOutput (w : Writer)
deriving DecidableEq, Repr

/-- The exported `Option` a name stands for. -/
def Builtin.toOption : Builtin → Option
  | Builtin.failFast => FailFast
  | Builtin.noDefaults => NoDefaults
  | Builtin.parallel => Parallel
  | Builtin.setOutput w => SetOutput w

/-- A sample frame: the line of `helperB` that calls the assertion method. -/
def helperBFrame : Frame :=
  { Function := "example.com/app.helperB", File := "/src/app/b.go", Line := 20 }

/-- A sample frame: the line of `helperA` that calls `helperB`. -/
def helperAFrame : Frame :=
  { Function := "example.com/app.helperA", File := "/src/app/a.go", Line := 10 }

/-- A sample frame: the line of `main` that calls `helperA`. -/
def mainFrame : Frame :=
  { Function := "main.main", File := "/src/app/main.go", Line := 5 }

/-- A sample frame: a frame of the Go runtime above `main`. -/
def entryFrame : Frame :=
  { Function := "runtime.goexit", File := "/usr/local/go/src/runtime/asm_amd64.s", Line := 1700 }

/-- A sample frame: the line of `runtime.main` that calls `main.main`. -/
def runtimeMainFrame : Frame :=
  { Function := "runtime.main", File := "/usr/local/go/src/runtime/proc.go", Line := 271 }

/-- A sample frame: the line of a test function that calls an assertion. -/
def testFrame : Frame :=
  { Function := "example.com/app.TestX", File := "/src/app/x_test.go", Line := 12 }

/-- A sample frame: the line of `testing.tRunner` that calls the test function. -/
def tRunnerFrame : Frame :=
  { Function := "testing.tRunner", File := "/usr/local/go/src/testing/testing.go", Line := 1690 }

/-- The call stack of a program whose `main` calls `helperA`, which calls
`helperB`, which calls the assertion: the three call sites, then `runtime.main`
and the goroutine entry. -/
def mainStack : CallStack :=
  { caller := helperBFrame, outer := [helperAFrame, mainFrame, runtimeMainFrame, entryFrame] }

/-- The call stack of a test function run by `go test` that calls the
assertion itself: its call site, then `testing.tRunner` and the goroutine
entry. -/
def testStack : CallStack :=
  { caller := testFrame, outer := [tRunnerFrame, entryFrame] }

/-- The call stack of a test function run by `go test` that reaches the
assertion through `helperA` and `helperB`. -/
def testHelperStack : CallStack :=
  { caller := helperBFrame, outer := [helperAFrame, testFrame, tRunnerFrame, entryFrame] }

/-- The context `New(t)` for a test handle `t`: sink standard output, every
flag unset. -/
def plainContext : I := (New ⟨1⟩ []).1

/-- The context `New(t, FailFast)`. -/
def failFastContext : I := (New ⟨1⟩ [FailFast]).1

/-- The context `New(t, NoDefaults)`. -/
def noDefaultsContext : I := (New ⟨1⟩ [NoDefaults]).1

/-- The context `New(t, SetOutput(nil))`. -/
def nilSinkContext : I := (New ⟨1⟩ [SetOutput Writer.nil]).1

/-- The context `New(t, FailFast, SetOutput(nil))`. -/
def nilSinkFailFastContext : I := (New ⟨1⟩ [FailFast, SetOutput Writer.nil]).1

/-- A sample value for the diff capability: a struct with an exported field
`X` and an unexported field `y`. -/
structure SampleValue where
  X : Int
  y : Int
deriving DecidableEq, Repr

/-- Sample options of the diff capability. -/
inductive SampleOption where
  | exportAll
  | transform
deriving DecidableEq, Repr

/-- A sample diff capability: without the export-everything option it panics
on the unexported field, with it the difference is empty for equal values and
a fixed two-line text otherwise. -/
def sampleCmp : Cmp SampleValue SampleOption :=
  { Diff := fun a b opts =>
      if SampleOption.exportAll ∈ opts then
        if a = b then Except.ok "" else Except.ok "- left
+ right
"
      else Except.error "cannot handle unexported field"
    exportAll := SampleOption.exportAll }

/-! ## The swap loop reverses -/

theorem index_natCast (sites : callsites) (j : Nat) (c : callsite) (h : sites[j]? = some c) :
    index sites (j : Int) = Except.ok c := by
  have hj : j < sites.length := by
    rcases Nat.lt_or_ge j sites.length with hlt | hge
    · exact hlt
    · rw [List.getElem?_eq_none hge] at h; cases h
  have h1 : (0 : Int) ≤ (j : Int) ∧ (j : Int) < (sites.length : Int) := by omega
  unfold index
  simp [h1, h]

theorem assign_natCast (sites : callsites) (j : Nat) (c : callsite) (h : j < sites.length) :
    assign sites (j : Int) c = Except.ok (sites.set j c) := by
  have h1 : (0 : Int) ≤ (j : Int) ∧ (j : Int) < (sites.length : Int) := by omega
  unfold assign
  simp [h1]

theorem swapLoop_succ (i : Nat) (sites : callsites) (a b : callsite)
    (h : i + 1 ≤ sites.length) (ha : sites[sites.length - 1 - i]? = some a)
    (hb : sites[i]? = some b) :
    swapLoop (i + 1) sites = swapLoop i ((sites.set i a).set (sites.length - 1 - i) b) := by
  have hopp : (sites.length : Int) - 1 - (i : Int) = ((sites.length - 1 - i : Nat) : Int) := by
    omega
  have h1 : sites.length - 1 - i < sites.length := by omega
  have h2 : i < sites.length := by omega
  rw [swapLoop, hopp, index_natCast sites _ a ha, index_natCast sites _ b hb]
  simp only [bind, Except.bind]
  rw [assign_natCast _ _ _ h2]
  simp only []
  rw [assign_natCast _ _ _ (by simpa using h1)]

/-- Loop invariant of the swap loop: when `k` iterations remain, the entries at
distance at least `k` from both ends are already mirrored and the others are
still in place. -/
theorem swapLoop_mirrored (s : callsites) :
    ∀ (k : Nat) (cur : callsites), cur.length = s.length → 2 * k ≤ s.length →
      (∀ j, j < s.length →
        cur[j]? = if k ≤ j ∧ j + k < s.length then s[s.length - 1 - j]? else s[j]?) →
      swapLoop k cur = Except.ok s.reverse := by
  intro k
  induction k with
  | zero =>
    intro cur hlen _ hinv
    have : cur = s.reverse := by
      apply List.ext_getElem?
      intro j
      rcases Nat.lt_or_ge j s.length with hj | hj
      · rw [hinv j hj, List.getElem?_reverse hj]
        simp [hj]
      · rw [List.getElem?_eq_none (by omega), List.getElem?_eq_none (by simpa using hj)]
    rw [swapLoop, this]
  | succ k ih =>
    intro cur hlen hk hinv
    have hk1 : k < s.length := by omega
    have ho1 : s.length - 1 - k < s.length := by omega
    have ha : cur[cur.length - 1 - k]? = s[s.length - 1 - k]? := by
      rw [hlen, hinv _ ho1, if_neg (by omega)]
    have hb : cur[k]? = s[k]? := by
      rw [hinv _ hk1, if_neg (by omega)]
    obtain ⟨a, hsa⟩ : ∃ a, s[s.length - 1 - k]? = some a :=
      ⟨_, List.getElem?_eq_getElem ho1⟩
    obtain ⟨b, hsb⟩ : ∃ b, s[k]? = some b := ⟨_, List.getElem?_eq_getElem hk1⟩
    rw [swapLoop_succ k cur a b (by omega) (ha.trans hsa) (hb.trans hsb)]
    apply ih
    · simp [hlen]
    · omega
    · intro j hj
      rw [List.getElem?_set, List.getElem?_set, hlen]
      by_cases h1 : s.length - 1 - k = j
      · subst h1
        simp only [List.length_set, hlen, if_true, ho1]
        rw [if_pos (by omega)]
        have : s.length - 1 - (s.length - 1 - k) = k := by omega
        rw [this, hsb]
      · rw [if_neg h1]
        by_cases h2 : k = j
        · subst h2
          rw [if_pos rfl, if_pos hk1, if_pos (by omega), hsa]
        · rw [if_neg h2, hinv j hj]
          by_cases h3 : k + 1 ≤ j ∧ j + (k + 1) < s.length
          · rw [if_pos h3, if_pos (by omega)]
          · rw [if_neg h3, if_neg (by omega)]

theorem swapLoop_reverse (s : callsites) : swapLoop (s.length / 2) s = Except.ok s.reverse := by
  apply swapLoop_mirrored s _ s rfl (by omega)
  intro j hj
  by_cases h : s.length / 2 ≤ j ∧ j + s.length / 2 < s.length
  · have hmid : s.length - 1 - j = j := by omega
    rw [if_pos h, hmid]
  · rw [if_neg h]

/-! ## What `callers` returns -/

theorem framesLoop_eq : ∀ (rest : List Frame) (f : Frame) (sites : callsites),
    framesLoop rest (f, !rest.isEmpty) sites = sites ++ ((f :: rest).dropLast).map siteOf := by
  intro rest
  induction rest with
  | nil => intro f sites; simp [framesLoop]
  | cons g rest ih =>
    intro f sites
    rw [framesLoop]
    simp only [List.isEmpty_cons, Bool.not_false, if_true]
    rw [ih g (sites ++ [siteOf f])]
    simp [List.dropLast]

theorem collectSites_eq (pcs : List Frame) : collectSites pcs = pcs.dropLast.map siteOf := by
  cases pcs with
  | nil => simp [collectSites, Frames.Next, framesLoop]
  | cons f rest =>
    simp only [collectSites, Frames.Next]
    rw [framesLoop_eq rest f []]
    simp

theorem callers_eq (stack : List Frame) (skip : Nat) :
    callers stack skip =
      if (stack.drop skip).take 50 = [] then Except.error "is: zero callers found"
      else Except.ok (((stack.drop skip).take 50).dropLast.map siteOf).reverse := by
  have hpc : runtime.Callers (pkgFrame "callers" 104 :: stack) (skip + 2) 50
      = (stack.drop skip).take 50 := by
    simp [runtime.Callers]
  unfold callers
  simp only [hpc, List.take_length]
  by_cases h : (stack.drop skip).take 50 = []
  · simp [h]
  · have hl : ((stack.drop skip).take 50).length ≠ 0 := by
      intro h0; exact h (List.length_eq_zero.mp h0)
    rw [if_neg hl, if_neg h, collectSites_eq, swapLoop_reverse]

/-! ## `stringify` as a join -/

theorem stringifyLoop_go (showFunction : Bool) :
    ∀ (rest : callsites) (i : Nat) (buf : String), 2 ≤ i →
      stringifyLoop showFunction i rest buf
        = String.intercalate.go buf " -> " (rest.map (render showFunction)) := by
  intro rest
  induction rest with
  | nil => intro i buf _; simp [stringifyLoop, String.intercalate.go]
  | cons site rest ih =>
    intro i buf hi
    rw [stringifyLoop, if_neg (by omega)]
    simp only [gt_iff_lt, show 1 < i from by omega, if_true]
    rw [ih (i + 1) _ (by omega), List.map_cons, String.intercalate.go]
    congr 1
    cases showFunction <;> simp [render, String.append_assoc]

theorem stringify_eq (sites : callsites) (showFunction : Bool) :
    sites.stringify showFunction
      = " -> ".intercalate ((sites.drop 1).map (render showFunction)) := by
  cases sites with
  | nil => simp [callsites.stringify, stringifyLoop, String.intercalate]
  | cons a rest =>
    cases rest with
    | nil => simp [callsites.stringify, stringifyLoop, String.intercalate]
    | cons b rest =>
      simp only [callsites.stringify, List.drop_succ_cons, List.drop_zero, List.map_cons,
        String.intercalate]
      rw [stringifyLoop, if_pos rfl, stringifyLoop, if_neg (by decide)]
      simp only [zero_add, gt_iff_lt, lt_self_iff_false, if_false]
      rw [stringifyLoop_go showFunction rest 2 _ (le_refl 2)]
      congr 1

theorem intercalate_go_length (sep : String) :
    ∀ (l : List String) (acc : String),
      (String.intercalate.go acc sep l).length
        = acc.length + (l.map String.length).sum + sep.length * l.length := by
  intro l
  induction l with
  | nil => intro acc; simp [String.intercalate.go]
  | cons a l ih =>
    intro acc
    rw [String.intercalate.go, ih]
    simp [String.length_append, Nat.mul_succ]
    omega

/-! ## The assertion methods -/

theorem callers_method (self : Frame) (stack : CallStack) :
    callers (self :: stack.frames) 1
      = Except.ok ((stack.frames.take 50).dropLast.map siteOf).reverse := by
  rw [callers_eq]
  simp [CallStack.frames]

theorem marksFailed_nil (t : T) : ¬ marksFailed t [] := by
  simp [marksFailed]

theorem marksFailed_fail (is : I) (pre : List Event) : marksFailed is.t (pre ++ is.fail) := by
  unfold marksFailed I.fail
  cases is.failFast <;> simp

theorem fail_eq (is : I) :
    is.fail = [if is.failFast then Event.FailNow is.t else Event.Fail is.t] := by
  unfold I.fail
  cases is.failFast <;> rfl

theorem WriteString_nonnil (w : Writer) (s : String) (h : w ≠ Writer.nil) :
    io.WriteString w s = Except.ok [Event.WriteString w s] := by
  cases w with
  | nil => exact absurd rfl h
  | stdout => rfl
  | custom id => rfl

theorem True_run (is : I) (stack : CallStack) (h : is.out ≠ Writer.nil) :
    is.True stack false = Except.ok
      ([Event.WriteString is.out
          ("[" ++ callsites.stringify ((stack.frames.take 50).dropLast.map siteOf).reverse
            is.showFunction ++ "] not true\n")] ++ is.fail) := by
  simp only [I.True, callers_method, WriteString_nonnil _ _ h]
  rfl

theorem Equal_run {Value CmpOption : Type} (cmp : Cmp Value CmpOption) (is : I)
    (stack : CallStack) (x y : Value) (opts : List CmpOption) (h : is.out ≠ Writer.nil) :
    is.Equal cmp stack x y opts =
      match cmp.Diff x y (if is.noDefaults then opts else cmp.exportAll :: opts) with
      | Except.error e => Except.error e
      | Except.ok d =>
        if d = "" then Except.ok []
        else Except.ok
          ([Event.WriteString is.out
            ("[" ++ callsites.stringify ((stack.frames.take 50).dropLast.map siteOf).reverse
              is.showFunction ++ "] diff -x +y\n" ++ d)] ++ is.fail) := by
  have hopts : (if (!is.noDefaults) = true then [cmp.exportAll] ++ opts else opts)
      = (if is.noDefaults then opts else cmp.exportAll :: opts) := by
    cases is.noDefaults <;> rfl
  simp only [I.Equal, callers_method, hopts]
  cases cmp.Diff x y (if is.noDefaults then opts else cmp.exportAll :: opts) with
  | error e => rfl
  | ok d =>
    simp only [bind, Except.bind]
    by_cases hd : d = ""
    · simp [hd]
    · simp only [if_neg hd, WriteString_nonnil _ _ h]

theorem NoErr_run (is : I) (stack : CallStack) (text : String) (h : is.out ≠ Writer.nil) :
    is.NoErr stack (error.value text) = Except.ok
      ([Event.WriteString is.out
          ("[" ++ callsites.stringify ((stack.frames.take 50).dropLast.map siteOf).reverse
            is.showFunction ++ "] err: " ++ text ++ "\n")] ++ is.fail) := by
  simp only [I.NoErr, callers_method, WriteString_nonnil _ _ h]
  rfl

theorem Fail_run (is : I) (stack : CallStack) (h : is.out ≠ Writer.nil) :
    is.Fail stack = Except.ok
      ([Event.WriteString is.out
          ("[" ++ callsites.stringify ((stack.frames.take 50).dropLast.map siteOf).reverse
            is.showFunction ++ "] failed")] ++ is.fail) := by
  simp only [I.Fail, callers_method, WriteString_nonnil _ _ h]
  rfl

/-- C1, as stated, fails at the context `New(t, SetOutput(nil))`: `True(false)`
panics in the write to the nil sink, before the escalator, so the test is not
marked failed although the expression is false. -/
theorem True_nil_sink_panics :
    nilSinkContext.out = Writer.nil ∧
    nilSinkContext.True testStack false
      = Except.error "invalid memory address or nil pointer dereference" ∧
    ¬ ∃ events, nilSinkContext.True testStack false = Except.ok events ∧
        marksFailed nilSinkContext.t events := by
  refine ⟨rfl, rfl, ?_⟩
  rintro ⟨events, hrun, _⟩
  have hpanic : nilSinkContext.True testStack false
      = Except.error "invalid memory address or nil pointer dereference" := rfl
  rw [hpanic] at hrun
  cases hrun

/-- C1, amended. For every context whose output sink is non-nil and every
boolean `b`, `True(b)` marks the test failed exactly when `b` is false. With
`b` true it makes no call at all: nothing is written and neither failure
primitive runs. With `b` false its calls are, in order, one write to the sink
of the text "[" + trail + "] not true\n", where the trail is `callers(1)`
rendered by `stringify`, and then the call of the escalator. -/
theorem True_fails_iff_false (is : I) (stack : CallStack) (b : Bool)
    (h : is.out ≠ Writer.nil) :
    ∃ sites events,
      callers (pkgFrame "I.True" 69 :: stack.frames) 1 = Except.ok sites ∧
      is.True stack b = Except.ok events ∧
      (marksFailed is.t events ↔ b = false) ∧
      (b = true → events = []) ∧
      (b = false → events =
        [Event.WriteString is.out ("[" ++ sites.stringify is.showFunction ++ "] not true\n")]
          ++ is.fail) := by
  cases b
  · exact ⟨_, _, callers_method _ stack, True_run is stack h,
      ⟨fun _ => rfl, fun _ => marksFailed_fail is _⟩, by simp, fun _ => rfl⟩
  · exact ⟨_, [], callers_method _ stack, rfl,
      ⟨fun hm => absurd hm (marksFailed_nil _), by simp⟩, fun _ => rfl, by simp⟩

/-- The amended C1 at `New(t)` called from a test function: one line on
standard output, then `Fail`. -/
theorem True_fails_iff_false_witness :
    plainContext.out ≠ Writer.nil ∧
    plainContext.True testStack false = Except.ok
      [Event.WriteString Writer.stdout "[x_test.go:12] not true\n", Event.Fail ⟨1⟩] ∧
    ∃ events, plainContext.True testStack false = Except.ok events ∧
      marksFailed plainContext.t events := by
  obtain ⟨_, events, _, hrun, hiff, _, _⟩ :=
    True_fails_iff_false plainContext testStack false (by decide)
  exact ⟨by decide, rfl, events, hrun, hiff.mpr rfl⟩

/-- C2, as stated, fails at the context `New(t, SetOutput(nil))`: the diff of
the two values is non-empty, yet `Equal` panics in the write to the nil sink
and the test is not marked failed. -/
theorem Equal_nil_sink_panics :
    nilSinkContext.out = Writer.nil ∧
    sampleCmp.Diff ⟨1, 0⟩ ⟨2, 0⟩ [sampleCmp.exportAll] = Except.ok "- left\n+ right\n" ∧
    nilSinkContext.Equal sampleCmp testStack ⟨1, 0⟩ ⟨2, 0⟩ []
      = Except.error "invalid memory address or nil pointer dereference" ∧
    ¬ ∃ events, nilSinkContext.Equal sampleCmp testStack ⟨1, 0⟩ ⟨2, 0⟩ [] = Except.ok events ∧
        marksFailed nilSinkContext.t events := by
  refine ⟨rfl, rfl, rfl, ?_⟩
  rintro ⟨events, hrun, _⟩
  have hpanic : nilSinkContext.Equal sampleCmp testStack ⟨1, 0⟩ ⟨2, 0⟩ []
      = Except.error "invalid memory address or nil pointer dereference" := rfl
  rw [hpanic] at hrun
  cases hrun

/-- C2, amended. For every context whose output sink is non-nil,
`Equal(x, y, opts...)` marks the test failed exactly when the diff capability
returns a non-empty text for `x`, `y` and the options handed to it, which are
the export-everything option followed by `opts` when no-defaults is unset and
exactly `opts` when it is set. On an empty difference no call is made;
otherwise the text written to the sink is "[" + trail + "] diff -x +y\n"
followed by the diff text, and the escalator runs after the write. When the
diff capability panics, `Equal` panics with it and makes no call. -/
theorem Equal_fails_iff_diff {Value CmpOption : Type} (cmp : Cmp Value CmpOption) (is : I)
    (stack : CallStack) (x y : Value) (opts : List CmpOption) (h : is.out ≠ Writer.nil) :
    ∃ sites passed,
      callers (pkgFrame "I.Equal" 83 :: stack.frames) 1 = Except.ok sites ∧
      (is.noDefaults = false → passed = cmp.exportAll :: opts) ∧
      (is.noDefaults = true → passed = opts) ∧
      ((∃ events, is.Equal cmp stack x y opts = Except.ok events ∧ marksFailed is.t events) ↔
        ∃ d, cmp.Diff x y passed = Except.ok d ∧ d ≠ "") ∧
      (cmp.Diff x y passed = Except.ok "" → is.Equal cmp stack x y opts = Except.ok []) ∧
      (∀ d, cmp.Diff x y passed = Except.ok d → d ≠ "" →
        is.Equal cmp stack x y opts = Except.ok
          ([Event.WriteString is.out
            ("[" ++ sites.stringify is.showFunction ++ "] diff -x +y\n" ++ d)] ++ is.fail)) ∧
      (∀ e, cmp.Diff x y passed = Except.error e →
        is.Equal cmp stack x y opts = Except.error e) := by
  have hrun := Equal_run cmp is stack x y opts h
  have hp1 : is.noDefaults = false →
      (if is.noDefaults then opts else cmp.exportAll :: opts) = cmp.exportAll :: opts := by
    intro hn; simp [hn]
  have hp2 : is.noDefaults = true →
      (if is.noDefaults then opts else cmp.exportAll :: opts) = opts := by
    intro hn; simp [hn]
  refine ⟨_, _, callers_method _ stack, hp1, hp2, ?_, ?_, ?_, ?_⟩
  · constructor
    · rintro ⟨events, hev, hm⟩
      rw [hrun] at hev
      cases hdiff : cmp.Diff x y (if is.noDefaults then opts else cmp.exportAll :: opts) with
      | error e => rw [hdiff] at hev; cases hev
      | ok d =>
        refine ⟨d, rfl, ?_⟩
        intro hd
        rw [hdiff] at hev
        simp only [hd, if_true] at hev
        cases hev
        exact marksFailed_nil _ hm
    · rintro ⟨d, hdiff, hd⟩
      rw [hdiff] at hrun
      simp only [if_neg hd] at hrun
      exact ⟨_, hrun, marksFailed_fail is _⟩
  · intro hdiff
    rw [hdiff] at hrun
    simpa using hrun
  · intro d hdiff hd
    rw [hdiff] at hrun
    simpa only [if_neg hd] using hrun
  · intro e hdiff
    rw [hdiff] at hrun
    exact hrun

/-- The amended C2 at `New(t)` called from a test function on two values that
differ: the header line and the diff text on standard output, then `Fail`.
At `New(t, NoDefaults)` the sample diff capability panics on the unexported
field, and `Equal` with it. -/
theorem Equal_fails_iff_diff_witness :
    plainContext.out ≠ Writer.nil ∧
    plainContext.Equal sampleCmp testStack ⟨1, 0⟩ ⟨2, 0⟩ [] = Except.ok
      [Event.WriteString Writer.stdout "[x_test.go:12] diff -x +y\n- left\n+ right\n",
        Event.Fail ⟨1⟩] ∧
    noDefaultsContext.Equal sampleCmp testStack ⟨1, 0⟩ ⟨2, 0⟩ []
      = Except.error "cannot handle unexported field" ∧
    ∃ events, plainContext.Equal sampleCmp testStack ⟨1, 0⟩ ⟨2, 0⟩ [] = Except.ok events ∧
      marksFailed plainContext.t events := by
  obtain ⟨_, passed, _, hp, _, hiff, _, _, _⟩ :=
    Equal_fails_iff_diff sampleCmp plainContext testStack ⟨1, 0⟩ ⟨2, 0⟩ [] (by decide)
  refine ⟨by decide, rfl, rfl, hiff.mpr ⟨"- left\n+ right\n", ?_, by decide⟩⟩
  rw [hp rfl]
  rfl

/-- C3, as stated, fails at the context `New(t, SetOutput(nil))`: `NoErr` of a
non-nil error panics in the write to the nil sink and the test is not marked
failed. -/
theorem NoErr_nil_sink_panics :
    nilSinkContext.out = Writer.nil ∧
    nilSinkContext.NoErr testStack (error.value "boom")
      = Except.error "invalid memory address or nil pointer dereference" ∧
    ¬ ∃ events, nilSinkContext.NoErr testStack (error.value "boom") = Except.ok events ∧
        marksFailed nilSinkContext.t events := by
  refine ⟨rfl, rfl, ?_⟩
  rintro ⟨events, hrun, _⟩
  have hpanic : nilSinkContext.NoErr testStack (error.value "boom")
      = Except.error "invalid memory address or nil pointer dereference" := rfl
  rw [hpanic] at hrun
  cases hrun

/-- C3, amended. For every context whose output sink is non-nil and every
error value `e`, `NoErr(e)` marks the test failed exactly when `e` is non-nil.
With a nil error no call is made. With a non-nil error the text written to the
sink is "[" + trail + "] err: " + description + "\n", which contains the
error's description, and the escalator runs after the write. -/
theorem NoErr_fails_iff_nonnil (is : I) (stack : CallStack) (e : error)
    (h : is.out ≠ Writer.nil) :
    ∃ sites events,
      callers (pkgFrame "I.NoErr" 91 :: stack.frames) 1 = Except.ok sites ∧
      is.NoErr stack e = Except.ok events ∧
      (marksFailed is.t events ↔ e ≠ error.nil) ∧
      (e = error.nil → events = []) ∧
      (∀ text, e = error.value text →
        events = [Event.WriteString is.out
            ("[" ++ sites.stringify is.showFunction ++ "] err: " ++ text ++ "\n")] ++ is.fail ∧
        ∃ before after, events = [Event.WriteString is.out (before ++ text ++ after)] ++ is.fail)
    := by
  cases e with
  | nil =>
    exact ⟨_, [], callers_method _ stack, rfl,
      ⟨fun hm => absurd hm (marksFailed_nil _), fun hne => absurd rfl hne⟩, fun _ => rfl,
      fun text he => (by cases he)⟩
  | value text =>
    refine ⟨_, _, callers_method _ stack, NoErr_run is stack text h,
      ⟨fun _ => by simp, fun _ => marksFailed_fail is _⟩, fun he => (by cases he), ?_⟩
    intro text2 he
    cases he
    exact ⟨rfl, _, _, rfl⟩

/-- The amended C3 at `New(t)` called from a test function with an error whose
description is "boom". -/
theorem NoErr_fails_iff_nonnil_witness :
    plainContext.out ≠ Writer.nil ∧
    plainContext.NoErr testStack (error.value "boom") = Except.ok
      [Event.WriteString Writer.stdout "[x_test.go:12] err: boom\n", Event.Fail ⟨1⟩] ∧
    ∃ events, plainContext.NoErr testStack (error.value "boom") = Except.ok events ∧
      marksFailed plainContext.t events := by
  obtain ⟨_, events, _, hrun, hiff, _, _⟩ :=
    NoErr_fails_iff_nonnil plainContext testStack (error.value "boom") (by decide)
  exact ⟨by decide, rfl, events, hrun, hiff.mpr (by decide)⟩

/-- C4, as stated, fails at the context `New(t, FailFast, SetOutput(nil))`:
each of the four failing assertions panics in the write to the nil sink, so
neither `FailNow` nor `Fail` is called. -/
theorem nil_sink_calls_no_primitive :
    nilSinkFailFastContext.failFast = true ∧ nilSinkFailFastContext.out = Writer.nil ∧
    nilSinkFailFastContext.True testStack false
      = Except.error "invalid memory address or nil pointer dereference" ∧
    nilSinkFailFastContext.Equal sampleCmp testStack ⟨1, 0⟩ ⟨2, 0⟩ []
      = Except.error "invalid memory address or nil pointer dereference" ∧
    nilSinkFailFastContext.NoErr testStack (error.value "boom")
      = Except.error "invalid memory address or nil pointer dereference" ∧
    nilSinkFailFastContext.Fail testStack
      = Except.error "invalid memory address or nil pointer dereference" :=
  ⟨rfl, rfl, rfl, rfl, rfl, rfl⟩

/-- C4, amended. For every context whose output sink is non-nil, the escalator
makes exactly one call on the test handle per failing assertion, chosen by the
fail-fast flag alone: `FailNow` when it is set, `Fail` when it is not. Every
failing assertion (`True(false)`, `Equal` with a non-empty diff, `NoErr` of a
non-nil error, and `Fail`) makes exactly two calls: first the write of its
message to the sink, then that one primitive. -/
theorem fail_calls_one_primitive {Value CmpOption : Type} (is : I) (stack : CallStack)
    (h : is.out ≠ Writer.nil) :
    (is.failFast = true → is.fail = [Event.FailNow is.t]) ∧
    (is.failFast = false → is.fail = [Event.Fail is.t]) ∧
    (∃ msg, is.True stack false = Except.ok
      [Event.WriteString is.out msg,
        if is.failFast then Event.FailNow is.t else Event.Fail is.t]) ∧
    (∀ (cmp : Cmp Value CmpOption) (x y : Value) (opts : List CmpOption) (d : String),
      cmp.Diff x y (if is.noDefaults then opts else cmp.exportAll :: opts) = Except.ok d →
      d ≠ "" →
      ∃ msg, is.Equal cmp stack x y opts = Except.ok
        [Event.WriteString is.out msg,
          if is.failFast then Event.FailNow is.t else Event.Fail is.t]) ∧
    (∀ text, ∃ msg, is.NoErr stack (error.value text) = Except.ok
      [Event.WriteString is.out msg,
        if is.failFast then Event.FailNow is.t else Event.Fail is.t]) ∧
    (∃ msg, is.Fail stack = Except.ok
      [Event.WriteString is.out msg,
        if is.failFast then Event.FailNow is.t else Event.Fail is.t]) := by
  refine ⟨fun hf => by simp [I.fail, hf], fun hf => by simp [I.fail, hf], ?_, ?_, ?_, ?_⟩
  · exact ⟨_, by rw [True_run is stack h, fail_eq]; rfl⟩
  · intro cmp x y opts d hdiff hd
    have hrun := Equal_run cmp is stack x y opts h
    rw [hdiff] at hrun
    simp only [if_neg hd] at hrun
    exact ⟨_, by rw [hrun, fail_eq]; rfl⟩
  · intro text
    exact ⟨_, by rw [NoErr_run is stack text h, fail_eq]; rfl⟩
  · exact ⟨_, by rw [Fail_run is stack h, fail_eq]; rfl⟩

/-- The amended C4 at `New(t, FailFast)` and at `New(t)`: the same failing
assertion ends in `FailNow` in the first and in `Fail` in the second. -/
theorem fail_calls_one_primitive_witness :
    failFastContext.out ≠ Writer.nil ∧
    failFastContext.True testStack false = Except.ok
      [Event.WriteString Writer.stdout "[x_test.go:12] not true\n", Event.FailNow ⟨1⟩] ∧
    plainContext.True testStack false = Except.ok
      [Event.WriteString Writer.stdout "[x_test.go:12] not true\n", Event.Fail ⟨1⟩] ∧
    failFastContext.fail = [Event.FailNow failFastContext.t] ∧
    plainContext.fail = [Event.Fail plainContext.t] :=
  ⟨by decide, rfl, rfl,
    (@fail_calls_one_primitive SampleValue SampleOption failFastContext testStack
      (by decide)).1 rfl,
    (@fail_calls_one_primitive SampleValue SampleOption plainContext testStack
      (by decide)).2.1 rfl⟩

/-- C5, as stated, fails at the context `New(t, SetOutput(nil))`: `Fail()`
panics in the write to the nil sink, the escalator does not run and the test
is not marked failed. -/
theorem Fail_nil_sink_panics :
    nilSinkContext.out = Writer.nil ∧
    nilSinkContext.Fail testStack
      = Except.error "invalid memory address or nil pointer dereference" ∧
    ¬ ∃ events, nilSinkContext.Fail testStack = Except.ok events ∧
        marksFailed nilSinkContext.t events := by
  refine ⟨rfl, rfl, ?_⟩
  rintro ⟨events, hrun, _⟩
  have hpanic : nilSinkContext.Fail testStack
      = Except.error "invalid memory address or nil pointer dereference" := rfl
  rw [hpanic] at hrun
  cases hrun

/-- C5, amended. For every context whose output sink is non-nil, `Fail()`
fails on every call, whatever the flags of the context: it writes the
bracketed trail followed by the body "failed" (the text
"[" + trail + "] failed") to the sink and then runs the escalator, so the test
is marked failed. -/
theorem Fail_always_fails (is : I) (stack : CallStack) (h : is.out ≠ Writer.nil) :
    ∃ sites events,
      callers (pkgFrame "I.Fail" 96 :: stack.frames) 1 = Except.ok sites ∧
      is.Fail stack = Except.ok events ∧
      events = [Event.WriteString is.out
        ("[" ++ sites.stringify is.showFunction ++ "]" ++ " " ++ "failed")] ++ is.fail ∧
      marksFailed is.t events :=
  ⟨_, _, callers_method _ stack, Fail_run is stack h, by
    simp only [String.append_assoc]; rfl, marksFailed_fail is _⟩

/-- The amended C5 at `New(t)` called from a test function. -/
theorem Fail_always_fails_witness :
    plainContext.out ≠ Writer.nil ∧
    plainContext.Fail testStack = Except.ok
      [Event.WriteString Writer.stdout "[x_test.go:12] failed", Event.Fail ⟨1⟩] ∧
    ∃ events, plainContext.Fail testStack = Except.ok events ∧
      marksFailed plainContext.t events := by
  obtain ⟨_, events, _, hrun, _, hm⟩ := Fail_always_fails plainContext testStack (by decide)
  exact ⟨by decide, rfl, events, hrun, hm⟩

/-! ## Construction and re-derivation -/

theorem NewCall_foldl (opts : List Option) :
    ∀ s : NewCall, opts.foldl (fun acc opt => { acc with is := opt acc.is }) s
      = { s with is := applyOpts opts s.is } := by
  induction opts with
  | nil => intro s; rfl
  | cons o opts ih => intro s; simp only [List.foldl_cons, ih, applyOpts]

theorem I_New_eq (p : I) (t : T) (opts : List Option) :
    p.New t opts =
      { caller := p, is := applyOpts opts { p with t := t },
        events := if (applyOpts opts { p with t := t }).parallel then [Event.Parallel t] else [] }
    := by
  simp only [I.New, NewCall_foldl]
  split <;> simp_all

/-- C6. Re-derivation inherits the parent's fields. The child returned by
`p.New(t2, opts...)` is the result of applying `opts` left to right to a copy
of `p` whose test handle is `t2`; `p` is left as it was; `Parallel` is called
on `t2` once when the child's parallel flag is set, and no call is made when
it is not. With no options the child has the parent's sink and flags, so a
child of `New(t, FailFast)` has fail-fast set. -/
theorem New_inherits_parent (p : I) (t2 : T) (opts : List Option) :
    (p.New t2 opts).is = opts.foldl (fun is opt => opt is) { p with t := t2 } ∧
    (p.New t2 opts).caller = p ∧
    ((p.New t2 opts).is.parallel = true → (p.New t2 opts).events = [Event.Parallel t2]) ∧
    ((p.New t2 opts).is.parallel = false → (p.New t2 opts).events = []) ∧
    ((p.New t2 []).is.t = t2 ∧ (p.New t2 []).is.out = p.out ∧
      (p.New t2 []).is.failFast = p.failFast ∧ (p.New t2 []).is.noDefaults = p.noDefaults ∧
      (p.New t2 []).is.showFunction = p.showFunction ∧
      (p.New t2 []).is.parallel = p.parallel) ∧
    (∀ t : T, ((New t [FailFast]).1.New t2 []).is.failFast = true) := by
  rw [I_New_eq]
  refine ⟨rfl, rfl, ?_, ?_, ?_, ?_⟩
  · intro h
    simp only at h
    simp [h]
  · intro h
    simp only at h
    simp [h]
  · simp [I_New_eq, applyOpts]
  · intro t
    rfl

/-! ## The printed trail -/

theorem stringify_four (r m a b : callsite) :
    callsites.stringify [r, m, a, b] false
      = render false m ++ " -> " ++ render false a ++ " -> " ++ render false b := by
  rw [stringify_eq]
  rfl

/-- C7, as stated, fails. In a program whose `main` calls `helperA`, which
calls `helperB`, which calls the assertion, the captured frames are the three
call sites followed by `runtime.main` and the goroutine entry; the printed
trail is "main.go:5 -> a.go:10 -> b.go:20", not "a.go:10 -> b.go:20". -/
theorem trail_from_main_has_three_tokens :
    runtime.Callers
        (pkgFrame "callers" 104 :: pkgFrame "I.True" 69 :: mainStack.frames) 3 50
      = [helperBFrame, helperAFrame, mainFrame, runtimeMainFrame, entryFrame] ∧
    callers (pkgFrame "I.True" 69 :: mainStack.frames) 1
      = Except.ok [siteOf runtimeMainFrame, siteOf mainFrame, siteOf helperAFrame,
          siteOf helperBFrame] ∧
    callsites.stringify [siteOf runtimeMainFrame, siteOf mainFrame, siteOf helperAFrame,
        siteOf helperBFrame] false = "main.go:5 -> a.go:10 -> b.go:20" ∧
    callsites.stringify [siteOf runtimeMainFrame, siteOf mainFrame, siteOf helperAFrame,
        siteOf helperBFrame] false
      ≠ render false (siteOf helperAFrame) ++ " -> " ++ render false (siteOf helperBFrame) ∧
    render false (siteOf helperAFrame) ++ " -> " ++ render false (siteOf helperBFrame)
      = "a.go:10 -> b.go:20" ∧
    plainContext.True mainStack false = Except.ok
      [Event.WriteString Writer.stdout "[main.go:5 -> a.go:10 -> b.go:20] not true\n",
        Event.Fail ⟨1⟩] := by
  refine ⟨rfl, rfl, by decide, by decide, by decide, rfl⟩

/-- C7, amended. When the call chain is main -> helperA -> helperB ->
assertion method, so that the captured frames from inner to outer are the call
site in `helperB`, the call site in `helperA`, the call site in `main` and the
two frames above `main` (its caller and the goroutine entry), the trail
printed with show-function disabled is
"file_of_main:line -> file_of_helperA:line -> file_of_helperB:line". The call
site of the assertion is the last entry; the frame loop leaves the outermost
captured frame out, and the one skipped first entry is the outermost collected
frame, the caller of `main`. The walker's own frame is not among the captured
frames. -/
theorem trail_from_main (B A M R1 R2 : Frame) :
    runtime.Callers (pkgFrame "callers" 104 :: pkgFrame "I.True" 69 ::
        CallStack.frames ⟨B, [A, M, R1, R2]⟩) 3 50 = [B, A, M, R1, R2] ∧
    collectSites [B, A, M, R1, R2] = [siteOf B, siteOf A, siteOf M, siteOf R1] ∧
    callers (pkgFrame "I.True" 69 :: CallStack.frames ⟨B, [A, M, R1, R2]⟩) 1
      = Except.ok [siteOf R1, siteOf M, siteOf A, siteOf B] ∧
    callsites.stringify [siteOf R1, siteOf M, siteOf A, siteOf B] false
      = render false (siteOf M) ++ " -> " ++ render false (siteOf A) ++ " -> "
          ++ render false (siteOf B) ∧
    (∀ is : I, is.out ≠ Writer.nil → is.showFunction = false →
      is.True ⟨B, [A, M, R1, R2]⟩ false = Except.ok
        ([Event.WriteString is.out
          ("[" ++ (render false (siteOf M) ++ " -> " ++ render false (siteOf A) ++ " -> "
            ++ render false (siteOf B)) ++ "] not true\n")] ++ is.fail)) := by
  have hc : callers (pkgFrame "I.True" 69 :: CallStack.frames ⟨B, [A, M, R1, R2]⟩) 1
      = Except.ok [siteOf R1, siteOf M, siteOf A, siteOf B] := by
    rw [callers_method]
    rfl
  refine ⟨rfl, rfl, hc, stringify_four _ _ _ _, ?_⟩
  intro is hout hsf
  rw [True_run is _ hout, hsf, ← stringify_four (siteOf R1)]
  rfl

/-- The amended C7 at a test function run by `go test` that reaches the
assertion through `helperA` and `helperB`: the loop leaves the goroutine entry
out, `testing.tRunner` is the skipped entry. -/
theorem trail_from_main_witness :
    callers (pkgFrame "I.True" 69 :: testHelperStack.frames) 1
      = Except.ok [siteOf tRunnerFrame, siteOf testFrame, siteOf helperAFrame,
          siteOf helperBFrame] ∧
    callsites.stringify [siteOf tRunnerFrame, siteOf testFrame, siteOf helperAFrame,
        siteOf helperBFrame] false = "x_test.go:12 -> a.go:10 -> b.go:20" :=
  ⟨(trail_from_main helperBFrame helperAFrame testFrame tRunnerFrame entryFrame).2.2.1,
    (trail_from_main helperBFrame helperAFrame testFrame tRunnerFrame entryFrame).2.2.2.1.trans
      (by decide)⟩

theorem intercalate_length (sep : String) (l : List String) :
    (sep.intercalate l).length
      = (l.map String.length).sum + sep.length * (l.length - 1) := by
  cases l with
  | nil => simp [String.intercalate]
  | cons a l =>
    rw [String.intercalate, intercalate_go_length]
    simp

/-- C8. `stringify` returns the renderings of all entries except the one at
index 0, joined by " -> ". An entry renders as basename(file) + ":" + decimal
line, with ":" + basename(function) appended exactly when show-function is
set. An empty or one-entry sequence gives the empty string, a two-entry
sequence gives the rendering of its second entry alone, and for n >= 2 entries
the result consists of the n - 1 renderings and n - 2 separators. -/
theorem stringify_joins_tail (sites : callsites) (showFunction : Bool) :
    sites.stringify showFunction
      = " -> ".intercalate ((sites.drop 1).map (render showFunction)) ∧
    (∀ site : callsite,
      (showFunction = true → render showFunction site =
        filepath.Base site.file ++ ":" ++ strconv.Itoa site.line
          ++ (":" ++ filepath.Base site.function)) ∧
      (showFunction = false → render showFunction site =
        filepath.Base site.file ++ ":" ++ strconv.Itoa site.line)) ∧
    (sites.length ≤ 1 → sites.stringify showFunction = "") ∧
    (∀ a b : callsite, sites = [a, b] → sites.stringify showFunction = render showFunction b) ∧
    (2 ≤ sites.length →
      ((sites.drop 1).map (render showFunction)).length = sites.length - 1 ∧
      (sites.stringify showFunction).length
        = (((sites.drop 1).map (render showFunction)).map String.length).sum
          + " -> ".length * (sites.length - 2)) := by
  refine ⟨stringify_eq sites showFunction, ?_, ?_, ?_, ?_⟩
  · intro site
    exact ⟨fun h => by simp [render, h], fun h => by simp [render, h]⟩
  · intro h
    rw [stringify_eq]
    match sites, h with
    | [], _ => rfl
    | [_], _ => rfl
  · intro a b h
    rw [stringify_eq, h]
    rfl
  · intro h
    refine ⟨by simp, ?_⟩
    rw [stringify_eq, intercalate_length]
    simp only [List.length_map, List.length_drop]
    have : sites.length - 1 - 1 = sites.length - 2 := by omega
    rw [this]

/-- C8 at a sequence of three call sites with show-function set. -/
theorem stringify_joins_tail_witness :
    callsites.stringify [siteOf mainFrame, siteOf helperAFrame, siteOf helperBFrame] true
      = "a.go:10:app.helperA -> b.go:20:app.helperB" :=
  (stringify_joins_tail [siteOf mainFrame, siteOf helperAFrame, siteOf helperBFrame] true).1.trans
    (by decide)

/-! ## The output sink -/

theorem applyOpts_out_nonnil : ∀ (names : List Builtin) (is : I),
    is.out ≠ Writer.nil → (∀ w, Builtin.setOutput w ∈ names → w ≠ Writer.nil) →
    (applyOpts (names.map Builtin.toOption) is).out ≠ Writer.nil := by
  intro names
  induction names with
  | nil => intro is h _; exact h
  | cons n names ih =>
    intro is h hw
    simp only [List.map_cons, applyOpts, List.foldl_cons]
    apply ih
    · cases n with
      | failFast => exact h
      | noDefaults => exact h
      | parallel => exact h
      | setOutput w => exact hw w (List.mem_cons_self _ _)
    · intro w hmem
      exact hw w (List.mem_cons_of_mem _ hmem)

theorem applyOpts_out_keep : ∀ (names : List Builtin) (is : I),
    (∀ w, Builtin.setOutput w ∉ names) →
    (applyOpts (names.map Builtin.toOption) is).out = is.out := by
  intro names
  induction names with
  | nil => intro is _; rfl
  | cons n names ih =>
    intro is hw
    simp only [List.map_cons, applyOpts, List.foldl_cons]
    have hrest : ∀ w, Builtin.setOutput w ∉ names :=
      fun w hmem => hw w (List.mem_cons_of_mem _ hmem)
    have := ih (n.toOption is) hrest
    simp only [applyOpts] at this
    rw [this]
    cases n with
    | failFast => rfl
    | noDefaults => rfl
    | parallel => rfl
    | setOutput w => exact absurd (List.mem_cons_self _ _) (hw w)

/-- C9, as stated, fails: `SetOutput` accepts the nil writer, and the context
`New(t, SetOutput(nil))` has a nil output sink. -/
theorem New_SetOutput_nil_sink :
    (New ⟨1⟩ ([Builtin.setOutput Writer.nil].map Builtin.toOption)).1.out = Writer.nil ∧
    ((New ⟨1⟩ []).1.New ⟨2⟩ ([Builtin.setOutput Writer.nil].map Builtin.toOption)).is.out
      = Writer.nil :=
  ⟨rfl, rfl⟩

/-- C9, amended. For every test handle and every list of options drawn from
FailFast, NoDefaults, Parallel and SetOutput(w) with `w` a non-nil writer, the
context returned by `New` has a non-nil output sink, which is standard output
when the list holds no SetOutput; and every context re-derived from it by
`I.New` with such options has a non-nil output sink too. -/
theorem New_out_nonnil (t : T) (names : List Builtin)
    (h : ∀ w, Builtin.setOutput w ∈ names → w ≠ Writer.nil) :
    (New t (names.map Builtin.toOption)).1.out ≠ Writer.nil ∧
    ((∀ w, Builtin.setOutput w ∉ names) →
      (New t (names.map Builtin.toOption)).1.out = Writer.stdout) ∧
    (∀ (t2 : T) (names2 : List Builtin),
      (∀ w, Builtin.setOutput w ∈ names2 → w ≠ Writer.nil) →
      ((New t (names.map Builtin.toOption)).1.New t2 (names2.map Builtin.toOption)).is.out
        ≠ Writer.nil) := by
  have hfst : ∀ opts : List Option, (New t opts).1 = applyOpts opts
      { t := t, out := Writer.stdout, failFast := false, noDefaults := false,
        showFunction := false, parallel := false } := by
    intro opts
    simp only [New]
    split <;> rfl
  have h1 : (New t (names.map Builtin.toOption)).1.out ≠ Writer.nil := by
    rw [hfst]
    exact applyOpts_out_nonnil names _ (by simp) h
  refine ⟨h1, ?_, ?_⟩
  · intro hno
    rw [hfst, applyOpts_out_keep names _ hno]
  · intro t2 names2 h2
    rw [I_New_eq]
    exact applyOpts_out_nonnil names2 _ h1 h2

/-- The amended C9 at `New(t, FailFast, SetOutput(w))` with `w` a custom writer. -/
theorem New_out_nonnil_witness :
    (∀ w, Builtin.setOutput w ∈ [Builtin.failFast, Builtin.setOutput (Writer.custom 7)] →
      w ≠ Writer.nil) ∧
    (New ⟨1⟩ ([Builtin.failFast, Builtin.setOutput (Writer.custom 7)].map
      Builtin.toOption)).1.out ≠ Writer.nil :=
  ⟨by simp, (New_out_nonnil ⟨1⟩ [Builtin.failFast, Builtin.setOutput (Writer.custom 7)]
    (by simp)).1⟩

/-! ## The reversal step of `callers` -/

/-- C10. The swap loop of `callers` reverses the sequence of call sites. For
every sequence `s` of length n, it ends without an index out of range, and in
its result the entry at index i is the original entry at index n - 1 - i for
every i < n. The result is a permutation of `s` whose index 0 holds the last
(outermost) collected call site and whose last index holds the first
(innermost) one, and running the loop on the result gives `s` back. -/
theorem swapLoop_reverses (s : callsites) :
    ∃ r : callsites,
      swapLoop (s.length / 2) s = Except.ok r ∧
      r.length = s.length ∧
      (∀ i, i < s.length → r[i]? = s[s.length - 1 - i]?) ∧
      r.Perm s ∧
      r.head? = s.getLast? ∧ r.getLast? = s.head? ∧
      swapLoop (r.length / 2) r = Except.ok s := by
  refine ⟨s.reverse, swapLoop_reverse s, List.length_reverse s, ?_, List.reverse_perm s,
    List.head?_reverse s, List.getLast?_reverse s, ?_⟩
  · intro i hi
    exact List.getElem?_reverse hi
  · have := swapLoop_reverse s.reverse
    rwa [List.reverse_reverse] at this

end testutil
